import Mathlib

/-!
Shallow embedding of the Employee-Task-Manager backend (Node/Express/Mongoose).

The data model follows `src/models/User|Employee|Task.js`; the operations
follow the task controller and employee controller (`src/unnamed/part_000`,
two controller files).  The Mongo store is modelled as lists of records;
`Model.findById` is `List.find?` on the id, `countDocuments(q)` is
`(filter q).length`, `updateMany`/`findOneAndUpdate` are the corresponding
list transformations.  Query-level updates (`findByIdAndUpdate`,
`updateMany`, `findOneAndUpdate`) do not run the mongoose `pre('save')`
document middleware, so the embedded update operations apply the raw field
changes without the save hooks; the save hooks themselves are embedded
separately (`preSaveTask`, and the employee-id generation inside
`createEmployee`) and applied exactly where `.create`/`.save()` is called.
Timestamps and dates are integers (milliseconds); object ids are naturals.
-/

namespace TaskManager

/-- Roles of `User.role` (`src/models/User.js`: enum admin | employee). -/
inductive Role
  | admin
  | employee
deriving DecidableEq, Repr

/-- Enum `Task.status`: `pending | in-progress | completed | cancelled`. -/
inductive Status
  | pending
  | inProgress
  | completed
  | cancelled
deriving DecidableEq, Repr

/-- Enum `Task.priority`: `low | medium | high | urgent`. -/
inductive Priority
  | low
  | medium
  | high
  | urgent
deriving DecidableEq, Repr

/-- An embedded comment of a task (`src/models/Task.js` `comments`). -/
structure TaskComment where
  user : Nat
  text : String
  createdAt : Int
deriving DecidableEq, Repr

/-- A task record (`src/models/Task.js`).  Attachments carry no logic the
controllers use and are omitted; all other schema fields are present. -/
structure Task where
  id : Nat
  title : String
  description : String
  assignedTo : Nat
  assignedBy : Nat
  priority : Priority
  status : Status
  deadline : Int
  startDate : Int
  completedDate : Option Int
  comments : List TaskComment
  tags : List String
  notificationSent : Bool
  createdAt : Int
  updatedAt : Int
deriving DecidableEq, Repr

/-- A user record (`src/models/User.js`); the hashed password is opaque to
the controllers modelled here and is omitted. -/
structure User where
  id : Nat
  name : String
  email : String
  role : Role
  department : String
  isActive : Bool
  createdAt : Int
deriving DecidableEq, Repr

/-- An employee profile record (`src/models/Employee.js`); the address and
performance sub-documents carry no controller logic and are omitted. -/
structure Employee where
  user : Nat
  employeeId : String
  position : String
  phone : String
  skills : List String
  tasksCompleted : Nat
  createdAt : Int
deriving DecidableEq, Repr

/-- The payload handed to `sendTaskNotification` in `createTask`. -/
structure TaskNote where
  email : String
  taskTitle : String
  assignedByName : String
  deadline : Int
  priority : Priority
deriving DecidableEq, Repr

/-- The persistent store: the three Mongo collections, plus the list of
notification attempts dispatched so far (to observe `sendTaskNotification`
calls). -/
structure St where
  users : List User
  employees : List Employee
  tasks : List Task
  notes : List TaskNote
deriving DecidableEq, Repr

/-- The empty store. -/
def emptySt : St := { users := [], employees := [], tasks := [], notes := [] }

/-- The authenticated caller (`req.user`), as resolved by the `protect`
middleware. -/
structure ReqUser where
  id : Nat
  role : Role
  name : String
deriving DecidableEq, Repr

/-- HTTP outcome of a handler: status code plus the `success` flag of the
JSON envelope. -/
structure ApiResp where
  status : Nat
  success : Bool
deriving DecidableEq, Repr

/-- Model of `User.findById`. -/
def findUser (st : St) (i : Nat) : Option User :=
  st.users.find? (fun u => decide (u.id = i))

/-- Model of `Task.findById`. -/
def findTask (st : St) (i : Nat) : Option Task :=
  st.tasks.find? (fun t => decide (t.id = i))

/-- Model of `Employee.findOne({ user: i })`. -/
def findEmployeeByUser (st : St) (i : Nat) : Option Employee :=
  st.employees.find? (fun e => decide (e.user = i))

/-- Case-insensitive substring match: models `{ $regex: s, $options: 'i' }`
applied to a plain-text search string. -/
def containsCI (hay pat : String) : Bool :=
  decide (pat.toLower.toList <:+: hay.toLower.toList)

/-- An optional query condition: absent conditions match everything. -/
def optCheck {α : Type} (o : Option α) (p : α → Bool) : Bool :=
  match o with
  | some a => p a
  | none => true

/-- The query object built by `getAllTasks` (taskController lines 14-30). -/
structure TaskQuery where
  assignedTo : Option Nat := none
  status : Option Status := none
  priority : Option Priority := none
  search : Option String := none
deriving DecidableEq, Repr

/-- Whether a task matches a `TaskQuery` (the `$or` over title/description
is the regex search of lines 26-29). -/
def matchesTaskQuery (q : TaskQuery) (t : Task) : Bool :=
  optCheck q.assignedTo (fun a => decide (t.assignedTo = a)) &&
  optCheck q.status (fun s => decide (t.status = s)) &&
  optCheck q.priority (fun p => decide (t.priority = p)) &&
  optCheck q.search (fun s => containsCI t.title s || containsCI t.description s)

/-- Query construction of `getAllTasks` (taskController lines 14-30): the
employee scope is set first; an explicit `assignedTo` filter overrides it
only for admin callers. -/
def buildTaskListQuery (caller : ReqUser) (status : Option Status)
    (priority : Option Priority) (assignedTo : Option Nat)
    (search : Option String) : TaskQuery :=
  let q : TaskQuery := {}
  let q := if caller.role = Role.employee then { q with assignedTo := some caller.id } else q
  let q := match status with
    | some s => { q with status := some s }
    | none => q
  let q := match priority with
    | some p => { q with priority := some p }
    | none => q
  let q := match assignedTo with
    | some a => if caller.role = Role.admin then { q with assignedTo := some a } else q
    | none => q
  match search with
  | some s => { q with search := some s }
  | none => q

/-- Handler of `GET /api/tasks` (`getAllTasks`, taskController lines 9-59): filter,
sort by `createdAt` descending, then `skip((page-1)*limit).limit(limit)`.
Only the returned task list is modelled (population of user names does not
change which tasks are returned). -/
def getAllTasks (caller : ReqUser) (status : Option Status)
    (priority : Option Priority) (assignedTo : Option Nat)
    (search : Option String) (page limit : Nat) (st : St) : List Task :=
  let q := buildTaskListQuery caller status priority assignedTo search
  let sorted := (st.tasks.filter (matchesTaskQuery q)).mergeSort
    (fun a b => decide (b.createdAt ≤ a.createdAt))
  (sorted.drop ((page - 1) * limit)).take limit

/-- The query object of `getTaskStats`/`getCalendarTasks` scoping
(lines 289-294, 366-376): only the employee `assignedTo` restriction. -/
def scopeQuery (caller : ReqUser) : Option Nat :=
  if caller.role = Role.employee then some caller.id else none

/-- Whether a task is in the caller's scope (`query.assignedTo` match). -/
def inScope (caller : ReqUser) (t : Task) : Bool :=
  optCheck (scopeQuery caller) (fun a => decide (t.assignedTo = a))

/-- Field `completionRate` (taskController line 345):
`totalTasks > 0 ? ((completedTasks / totalTasks) * 100).toFixed(2) : 0`.
`toFixed(2)` rounds to the nearest multiple of 1/100, ties away from zero
toward the larger value, which on nonnegative inputs is `round`. -/
def completionRate (completed total : Nat) : ℚ :=
  if 0 < total then (round ((completed : ℚ) / (total : ℚ) * 100 * 100) : ℤ) / 100 else 0

/-- The `$group` stage `{ _id: '$priority', count: { $sum: 1 } }` applied to
the `$match`ed tasks (taskController lines 309-312). -/
def priorityGroups (matched : List Task) : List (Priority × Nat) :=
  ((matched.map (fun t => t.priority)).dedup).map
    (fun p => (p, (matched.filter (fun t => decide (t.priority = p))).length))

/-- Day bucket of a timestamp: models `$dateToString '%Y-%m-%d'`, which
partitions timestamps by (UTC) calendar day; the exact string rendering is
irrelevant to the claims, only the partition is kept. -/
def dateBucket (ms : Int) : Int := ms / 86400000

/-- The trailing-7-days `$group` by (day, status) sorted by day ascending
(taskController lines 318-335), applied to the `$match`ed tasks. -/
def trendGroups (matched : List Task) : List ((Int × Status) × Nat) :=
  (((matched.map (fun t => (dateBucket t.createdAt, t.status))).dedup).map
    (fun k => (k, (matched.filter
      (fun t => decide ((dateBucket t.createdAt, t.status) = k))).length))).mergeSort
    (fun a b => decide (a.1.1 ≤ b.1.1))

/-- The statistics payload of `getTaskStats` (taskController lines 337-349). -/
structure TaskStats where
  totalTasks : Nat
  completedTasks : Nat
  pendingTasks : Nat
  inProgressTasks : Nat
  overdueTasks : Nat
  completionRate : ℚ
  priorityStats : List (Priority × Nat)
  taskTrends : List ((Int × Status) × Nat)
deriving DecidableEq, Repr

/-- Handler of `GET /api/tasks/stats/overview` (`getTaskStats`, lines 287-357):
role-restricted `countDocuments` per status, overdue count
(`status ≠ completed ∧ deadline < now`), completion rate, priority
distribution, and the 7-day trend buckets.  `now` is the clock reading. -/
def getTaskStats (caller : ReqUser) (now : Int) (st : St) : TaskStats :=
  let scopedQ := fun t => inScope caller t
  let totalTasks := (st.tasks.filter scopedQ).length
  let completedTasks := (st.tasks.filter
    (fun t => scopedQ t && decide (t.status = Status.completed))).length
  let pendingTasks := (st.tasks.filter
    (fun t => scopedQ t && decide (t.status = Status.pending))).length
  let inProgressTasks := (st.tasks.filter
    (fun t => scopedQ t && decide (t.status = Status.inProgress))).length
  let overdueTasks := (st.tasks.filter
    (fun t => scopedQ t && decide (¬ t.status = Status.completed) &&
      decide (t.deadline < now))).length
  let sevenDaysAgo := now - 7 * 86400000
  { totalTasks := totalTasks
    completedTasks := completedTasks
    pendingTasks := pendingTasks
    inProgressTasks := inProgressTasks
    overdueTasks := overdueTasks
    completionRate := completionRate completedTasks totalTasks
    priorityStats := priorityGroups (st.tasks.filter scopedQ)
    taskTrends := trendGroups (st.tasks.filter
      (fun t => scopedQ t && decide (sevenDaysAgo ≤ t.createdAt))) }

/-- The reduced projection `select('title status priority deadline
assignedTo')` of the calendar view. -/
structure CalendarTask where
  title : String
  status : Status
  priority : Priority
  deadline : Int
  assignedTo : Nat
deriving DecidableEq, Repr

/-- The calendar projection of a task. -/
def calendarSelect (t : Task) : CalendarTask :=
  { title := t.title
    status := t.status
    priority := t.priority
    deadline := t.deadline
    assignedTo := t.assignedTo }

/-- Handler of `GET /api/tasks/calendar/view` (`getCalendarTasks`, lines 362-393):
deadline between `startDate` and `endDate` (`$gte`/`$lte`, both inclusive),
employee scope added for employee callers, projected fields. -/
def getCalendarTasks (caller : ReqUser) (startDate endDate : Int)
    (st : St) : List CalendarTask :=
  let query := fun t : Task =>
    decide (startDate ≤ t.deadline) && decide (t.deadline ≤ endDate) &&
    inScope caller t
  (st.tasks.filter query).map calendarSelect

/-- The `taskSchema.pre('save')` hook (`src/models/Task.js` lines 81-90):
refresh `updatedAt`, and set `completedDate` when the status field was
modified, the status is `completed`, and no completion date is stored yet.
`statusModified` models `this.isModified('status')`.  Mongoose runs this
document middleware only on `.create()` and `.save()`; query updates
(`findByIdAndUpdate`, `updateMany`, `findOneAndUpdate`) bypass it. -/
def preSaveTask (now : Int) (statusModified : Bool) (t : Task) : Task :=
  let t1 := { t with updatedAt := now }
  if statusModified && decide (t1.status = Status.completed) &&
      decide (t1.completedDate = none) then
    { t1 with completedDate := some now }
  else t1

/-- Body of `POST /api/tasks` (taskController line 104). -/
structure CreateTaskBody where
  title : String
  description : String
  assignedTo : Nat
  priority : Priority
  deadline : Int
  tags : List String
deriving DecidableEq, Repr

/-- Handler of `POST /api/tasks` (`createTask`, taskController lines 102-150), admin
route.  Looks up the assigned user; if absent or not an employee, answers
400 and changes nothing.  Otherwise persists the task (via `Task.create`,
which runs the save hook; a new document has all its set paths modified)
with `assignedBy := caller`, status defaulted to `pending`, and dispatches
the notification payload.  `newId` is the fresh object id minted by the
store. -/
def createTask (caller : ReqUser) (body : CreateTaskBody) (now : Int)
    (newId : Nat) (st : St) : ApiResp × St :=
  match findUser st body.assignedTo with
  | none => ({ status := 400, success := false }, st)
  | some assignedUser =>
    if ¬ assignedUser.role = Role.employee then
      ({ status := 400, success := false }, st)
    else
      let task : Task :=
        { id := newId
          title := body.title
          description := body.description
          assignedTo := body.assignedTo
          assignedBy := caller.id
          priority := body.priority
          status := Status.pending
          deadline := body.deadline
          startDate := now
          completedDate := none
          comments := []
          tags := body.tags
          notificationSent := false
          createdAt := now
          updatedAt := now }
      let task := preSaveTask now true task
      let note : TaskNote :=
        { email := assignedUser.email
          taskTitle := body.title
          assignedByName := caller.name
          deadline := body.deadline
          priority := body.priority }
      ({ status := 201, success := true },
        { st with tasks := st.tasks ++ [task], notes := st.notes ++ [note] })

/-- Body of `PUT /api/tasks/:id`: any subset of the task's settable schema
fields may be present (`req.body` is free-form JSON; absent fields are left
untouched by `findByIdAndUpdate`). -/
structure UpdateTaskBody where
  title : Option String := none
  description : Option String := none
  assignedTo : Option Nat := none
  assignedBy : Option Nat := none
  priority : Option Priority := none
  status : Option Status := none
  deadline : Option Int := none
  startDate : Option Int := none
  completedDate : Option Int := none
  tags : Option (List String) := none
  notificationSent : Option Bool := none
deriving DecidableEq, Repr

/-- Model of `Task.findByIdAndUpdate(id, body)` field application (admin branch,
taskController lines 193-198): every field present in the body is set, the
rest keep their stored values.  No save hook runs. -/
def applyTaskBody (b : UpdateTaskBody) (t : Task) : Task :=
  { t with
    title := b.title.getD t.title
    description := b.description.getD t.description
    assignedTo := b.assignedTo.getD t.assignedTo
    assignedBy := b.assignedBy.getD t.assignedBy
    priority := b.priority.getD t.priority
    status := b.status.getD t.status
    deadline := b.deadline.getD t.deadline
    startDate := b.startDate.getD t.startDate
    completedDate := b.completedDate.or t.completedDate
    tags := b.tags.getD t.tags
    notificationSent := b.notificationSent.getD t.notificationSent }

/-- Replace (every occurrence of) the task with the given id by its image
under `f`; ids are unique in the store, so this is
`Task.findByIdAndUpdate`. -/
def setTask (tasks : List Task) (i : Nat) (f : Task → Task) : List Task :=
  tasks.map (fun t => if t.id = i then f t else t)

/-- Model of `Employee.findOneAndUpdate({ user }, { $inc: { tasksCompleted: 1 } })`
(taskController lines 186-189): increments the counter of the first
matching employee record. -/
def incTasksCompleted : List Employee → Nat → List Employee
  | [], _ => []
  | e :: rest, userId =>
    if e.user = userId then
      { e with tasksCompleted := e.tasksCompleted + 1 } :: rest
    else
      e :: incTasksCompleted rest userId

/-- Handler of `PUT /api/tasks/:id` (`updateTask`, taskController lines 155-213).
Employee callers: 403 unless the task is their own; otherwise only the
`status` field of the body is applied (`findByIdAndUpdate(id, { status })`
with `undefined` status stripped), and when the new status is `completed`
the caller's employee record gets `tasksCompleted` incremented —
unconditionally, whatever the previous status.  Admin callers: the whole
body is applied.  No save hook runs on either path. -/
def updateTask (caller : ReqUser) (taskId : Nat) (body : UpdateTaskBody)
    (st : St) : ApiResp × St :=
  match findTask st taskId with
  | none => ({ status := 404, success := false }, st)
  | some task =>
    if caller.role = Role.employee then
      if ¬ task.assignedTo = caller.id then
        ({ status := 403, success := false }, st)
      else
        let st1 := { st with tasks := (setTask st.tasks taskId
          (fun t => match body.status with
            | some s => { t with status := s }
            | none => t)) }
        let st2 := if body.status = some Status.completed then
            { st1 with employees := incTasksCompleted st1.employees caller.id }
          else st1
        ({ status := 200, success := true }, st2)
    else
      ({ status := 200, success := true },
        { st with tasks := setTask st.tasks taskId (applyTaskBody body) })

/-- Handler of `POST /api/tasks/:id/comments` (`addComment`, taskController lines
247-282): append the comment and `save()` the document, which runs the save
hook with the status path unmodified. -/
def addComment (caller : ReqUser) (taskId : Nat) (text : String) (now : Int)
    (st : St) : ApiResp × St :=
  match findTask st taskId with
  | none => ({ status := 404, success := false }, st)
  | some _ =>
    ({ status := 200, success := true },
      { st with tasks := setTask st.tasks taskId (fun t =>
          preSaveTask now false
            { t with comments := t.comments ++
                [({ user := caller.id, text := text, createdAt := now } : TaskComment)] }) })

/-- Model of `String(s).padStart(len, c)`. -/
def padStart (len : Nat) (c : Char) (s : String) : String :=
  String.mk (List.replicate (len - s.length) c) ++ s

/-- The id minted by the `employeeSchema.pre('save')` hook
(`src/models/Employee.js` lines 61-67): ``EMP${String(count + 1).padStart(4, '0')}``
where `count` is `Employee.countDocuments()` at save time. -/
def genEmployeeId (count : Nat) : String :=
  "EMP" ++ padStart 4 '0' (toString (count + 1))

/-- Decimal digit characters of `n`, most significant first: the
specification of what `String(n)` (that is, `Nat.repr`) produces for a
positive number. -/
def reprChars (n : Nat) : List Char :=
  ((Nat.digits 10 n).reverse).map Nat.digitChar

/-- Body of `POST /api/employees` (employeeController line 508); the
password is opaque here. -/
structure CreateEmployeeBody where
  name : String
  email : String
  department : String
  position : String
  phone : String
  skills : List String
deriving DecidableEq, Repr

/-- Handler of `POST /api/employees` (`createEmployee`, employeeController lines
506-553), admin route: reject (400) when a user with the email exists;
otherwise create the User (role forced to `employee`) and then the
Employee profile, whose save hook mints `employeeId` from the employee
count at that moment. -/
def createEmployee (body : CreateEmployeeBody) (newUserId : Nat) (now : Int)
    (st : St) : ApiResp × St :=
  if st.users.any (fun u => decide (u.email = body.email)) then
    ({ status := 400, success := false }, st)
  else
    let user : User :=
      { id := newUserId
        name := body.name
        email := body.email
        role := Role.employee
        department := body.department
        isActive := true
        createdAt := now }
    let emp : Employee :=
      { user := newUserId
        employeeId := genEmployeeId st.employees.length
        position := body.position
        phone := body.phone
        skills := body.skills
        tasksCompleted := 0
        createdAt := now }
    ({ status := 201, success := true },
      { st with users := st.users ++ [user], employees := st.employees ++ [emp] })

/-- Handler of `DELETE /api/employees/:id` (`deleteEmployee`, employeeController lines
602-636), admin route: 404 if the user is absent; otherwise delete the
Employee profile (`findOneAndDelete`), delete the User, and set the status
of every task assigned to that user to `cancelled`
(`Task.updateMany({ assignedTo }, { status: 'cancelled' })` — a query
update, so only the status field changes and no save hook runs). -/
def deleteEmployee (userId : Nat) (st : St) : ApiResp × St :=
  match findUser st userId with
  | none => ({ status := 404, success := false }, st)
  | some _ =>
    ({ status := 200, success := true },
      { st with
        employees := st.employees.eraseP (fun e => decide (e.user = userId))
        users := st.users.eraseP (fun u => decide (u.id = userId))
        tasks := st.tasks.map (fun t =>
          if t.assignedTo = userId then { t with status := Status.cancelled } else t) })

/-- The payload of `GET /api/employees/:id`: the user record, the joined
employee profile, and every task assigned to that user, newest first. -/
structure EmployeeView where
  user : User
  employeeDetails : Option Employee
  tasks : List Task
deriving DecidableEq, Repr

/-- Handler of `GET /api/employees/:id` (`getEmployee`, employeeController lines
470-501): look the user up by the path id; `none` is the 404 case.  The
handler never reads `req.user`, and the route
(`src/routes/employeeRoutes.js` lines 25-29) attaches no `authorize`
middleware to GET, only `protect`; the caller argument records what the
handler receives. -/
def getEmployee (caller : ReqUser) (userId : Nat) (st : St) : Option EmployeeView :=
  match findUser st userId with
  | none => none
  | some u =>
    some
      { user := u
        employeeDetails := findEmployeeByUser st u.id
        tasks := (st.tasks.filter (fun t => decide (t.assignedTo = u.id))).mergeSort
          (fun a b => decide (b.createdAt ≤ a.createdAt)) }

/-- An employee-management operation, as dispatched by the admin routes. -/
inductive EmpOp
  | create (body : CreateEmployeeBody) (newUserId : Nat) (now : Int)
  | delete (userId : Nat)
deriving DecidableEq, Repr

/-- Whether an operation is a create. -/
def EmpOp.isCreate : EmpOp → Bool
  | .create _ _ _ => true
  | .delete _ => false

/-- Run one employee operation against the store. -/
def runEmpOp (st : St) : EmpOp → St
  | .create body uid now => (createEmployee body uid now st).2
  | .delete uid => (deleteEmployee uid st).2

/-- Run a sequence of employee operations, left to right. -/
def runEmpOps (st : St) : List EmpOp → St
  | [] => st
  | op :: rest => runEmpOps (runEmpOp st op) rest

/-- Observer: number of tasks assigned to a user
(`Task.countDocuments({ assignedTo })`). -/
def assigneeTaskCount (st : St) (uid : Nat) : Nat :=
  (st.tasks.filter (fun t => decide (t.assignedTo = uid))).length

/-- Observer: number of tasks assigned to a user with a given status
(`Task.countDocuments({ assignedTo, status })`). -/
def assigneeStatusCount (st : St) (uid : Nat) (s : Status) : Nat :=
  (st.tasks.filter (fun t => decide (t.assignedTo = uid) &&
    decide (t.status = s))).length

/-- Observer: the `tasksCompleted` counter of the first employee record of
a user, when one exists. -/
def tasksCompletedOf (st : St) (uid : Nat) : Option Nat :=
  (findEmployeeByUser st uid).map (fun e => e.tasksCompleted)

/-- Observer: the stored `employeeId` strings, in collection order. -/
def employeeIds (st : St) : List String :=
  st.employees.map (fun e => e.employeeId)

/-- Fixture: an employee user with id 10. -/
def userE : User :=
  { id := 10, name := "eve", email := "eve@x", role := Role.employee,
    department := "dev", isActive := true, createdAt := 0 }

/-- Fixture: an employee user with id 11. -/
def userF : User :=
  { id := 11, name := "fred", email := "fred@x", role := Role.employee,
    department := "dev", isActive := true, createdAt := 0 }

/-- Fixture: an admin user with id 2. -/
def userA : User :=
  { id := 2, name := "ada", email := "ada@x", role := Role.admin,
    department := "hq", isActive := true, createdAt := 0 }

/-- Fixture: the employee profile of user 10. -/
def empE : Employee :=
  { user := 10, employeeId := "EMP0001", position := "dev", phone := "",
    skills := [], tasksCompleted := 5, createdAt := 0 }

/-- Fixture: the employee profile of user 11. -/
def empF : Employee :=
  { user := 11, employeeId := "EMP0002", position := "dev", phone := "",
    skills := [], tasksCompleted := 0, createdAt := 0 }

/-- Fixture: a pending task of user 10. -/
def taskA : Task :=
  { id := 1, title := "alpha", description := "first", assignedTo := 10,
    assignedBy := 2, priority := Priority.medium, status := Status.pending,
    deadline := 100, startDate := 0, completedDate := none, comments := [],
    tags := [], notificationSent := false, createdAt := 5, updatedAt := 5 }

/-- Fixture: a completed task of user 11. -/
def taskB : Task :=
  { id := 2, title := "beta", description := "second", assignedTo := 11,
    assignedBy := 2, priority := Priority.high, status := Status.completed,
    deadline := 200, startDate := 0, completedDate := some 50, comments := [],
    tags := [], notificationSent := false, createdAt := 6, updatedAt := 50 }

/-- Fixture: a store with an admin, two employees, and one task each. -/
def sampleSt : St :=
  { users := [userA, userE, userF]
    employees := [empE, empF]
    tasks := [taskA, taskB]
    notes := [] }

/-- Fixture: the authenticated employee caller for user 10. -/
def callerE : ReqUser := { id := 10, role := Role.employee, name := "eve" }

/-- Fixture: the authenticated employee caller for user 11. -/
def callerF : ReqUser := { id := 11, role := Role.employee, name := "fred" }

/-- Fixture: the authenticated admin caller for user 2. -/
def callerA : ReqUser := { id := 2, role := Role.admin, name := "ada" }

/-- Fixture: an employee-creation body. -/
def bodyA : CreateEmployeeBody :=
  { name := "a", email := "a@x", department := "dev", position := "p",
    phone := "", skills := [] }

/-- Fixture: an employee-creation body with a second email. -/
def bodyB : CreateEmployeeBody :=
  { name := "b", email := "b@x", department := "dev", position := "p",
    phone := "", skills := [] }

/-- Fixture: an employee-creation body with a third email. -/
def bodyC : CreateEmployeeBody :=
  { name := "c", email := "c@x", department := "dev", position := "p",
    phone := "", skills := [] }

lemma buildTaskListQuery_assignedTo_employee (caller : ReqUser)
    (h : caller.role = Role.employee) (status : Option Status)
    (priority : Option Priority) (assignedTo : Option Nat) (search : Option String) :
    (buildTaskListQuery caller status priority assignedTo search).assignedTo = some caller.id := by
  have hadmin : ¬ caller.role = Role.admin := by rw [h]; intro hc; cases hc
  unfold buildTaskListQuery
  cases status <;> cases priority <;> cases assignedTo <;> cases search <;>
    simp [h, hadmin]

lemma filter_and_filter {α : Type} (b p : α → Bool) (l : List α) :
    (l.filter b).filter (fun t => b t && p t) = l.filter (fun t => b t && p t) := by
  induction l with
  | nil => rfl
  | cons x xs ih => cases hb : b x <;> simp [List.filter_cons, hb, ih]

lemma filter_and_and_filter {α : Type} (b p r : α → Bool) (l : List α) :
    (l.filter b).filter (fun t => b t && p t && r t)
      = l.filter (fun t => b t && p t && r t) := by
  induction l with
  | nil => rfl
  | cons x xs ih => cases hb : b x <;> simp [List.filter_cons, hb, ih]

lemma filter_self_filter {α : Type} (b : α → Bool) (l : List α) :
    (l.filter b).filter b = l.filter b := by
  induction l with
  | nil => rfl
  | cons x xs ih => cases hb : b x <;> simp [List.filter_cons, hb, ih]

lemma inScope_employee (caller : ReqUser) (h : caller.role = Role.employee) :
    inScope caller = fun t => decide (t.assignedTo = caller.id) := by
  funext t
  simp [inScope, scopeQuery, h, optCheck]

lemma inScope_iff (caller : ReqUser) (t : Task) :
    inScope caller t = true ↔
      (caller.role = Role.employee → t.assignedTo = caller.id) := by
  by_cases hrole : caller.role = Role.employee <;>
    simp [inScope, scopeQuery, hrole, optCheck]

/-- C1: for every task-list, task-statistics and calendar query issued by
an employee-role caller, every task returned belongs to the caller
(whatever status/priority/assignedTo/search filters and pagination the
request supplies), and the statistics are exactly the statistics of the
store restricted to the caller's own tasks. -/
theorem C1_employee_scope_forced (caller : ReqUser)
    (h : caller.role = Role.employee)
    (status : Option Status) (priority : Option Priority) (assignedTo : Option Nat)
    (search : Option String) (page limit : Nat) (now startDate endDate : Int) (st : St) :
    (∀ t ∈ getAllTasks caller status priority assignedTo search page limit st,
        t.assignedTo = caller.id) ∧
    getTaskStats caller now st =
      getTaskStats caller now
        { st with tasks := st.tasks.filter (fun t => decide (t.assignedTo = caller.id)) } ∧
    (∀ c ∈ getCalendarTasks caller startDate endDate st, c.assignedTo = caller.id) := by
  refine ⟨?_, ?_, ?_⟩
  · intro t ht
    have h1 : t ∈ (st.tasks.filter
        (matchesTaskQuery (buildTaskListQuery caller status priority assignedTo search))).mergeSort
        (fun a b => decide (b.createdAt ≤ a.createdAt)) :=
      List.drop_subset _ _ (List.take_subset _ _ ht)
    rw [List.mem_mergeSort] at h1
    have h2 := (List.mem_filter.mp h1).2
    rw [matchesTaskQuery, buildTaskListQuery_assignedTo_employee caller h] at h2
    simp [optCheck] at h2
    exact h2.1.1.1
  · have hs := inScope_employee caller h
    simp only [getTaskStats, hs]
    rw [filter_self_filter]
    rw [filter_and_filter, filter_and_filter, filter_and_filter, filter_and_and_filter,
      filter_and_filter]
  · intro c hc
    simp only [getCalendarTasks, List.mem_map, List.mem_filter] at hc
    obtain ⟨t, ⟨_, hq⟩, rfl⟩ := hc
    rw [inScope_employee caller h] at hq
    simp at hq
    simpa [calendarSelect] using hq.2

/-- Witness for C1 at a concrete employee caller and store. -/
theorem C1_witness :
    getTaskStats callerE 7 sampleSt =
      getTaskStats callerE 7
        { sampleSt with tasks := (sampleSt.tasks.filter
            (fun t => decide (t.assignedTo = callerE.id))) } :=
  (C1_employee_scope_forced callerE rfl none none none none 1 10 7 0 0 sampleSt).2.1

/-- C6: the statistics `completionRate` is 0 when the total in scope is 0;
otherwise it is a two-decimal value ((completed/total)·100 rounded to the
nearest multiple of 1/100), and 3 completed of 7 total gives 42.86. -/
theorem C6_completion_rate (c t : Nat) (h : 0 < t) :
    completionRate c 0 = 0 ∧
    (∃ n : ℤ, completionRate c t = (n : ℚ) / 100) ∧
    |completionRate c t - (c : ℚ) / (t : ℚ) * 100| ≤ 1 / 200 ∧
    completionRate 3 7 = 4286 / 100 := by
  refine ⟨by simp [completionRate], ⟨_, by rw [completionRate, if_pos h]⟩, ?_, ?_⟩
  · rw [completionRate, if_pos h]
    set x : ℚ := (c : ℚ) / (t : ℚ) * 100 with hx
    have hr := abs_sub_round (x * 100)
    have heq : ((round (x * 100) : ℤ) : ℚ) / 100 - x
        = (((round (x * 100) : ℤ) : ℚ) - x * 100) / 100 := by ring
    rw [heq, abs_div]
    rw [show |(100 : ℚ)| = 100 from by norm_num]
    rw [abs_sub_comm]
    linarith
  · rw [completionRate, if_pos (by norm_num : 0 < 7)]
    have h1 : ((3 : ℕ) : ℚ) / ((7 : ℕ) : ℚ) * 100 * 100 = 30000 / 7 := by norm_num
    rw [h1]
    have h2 : round ((30000 : ℚ) / 7) = 4286 := by
      rw [round_eq, Int.floor_eq_iff]
      norm_num
    rw [h2]
    norm_num

/-- Witness for C6 at 3 completed of 7 total. -/
theorem C6_witness : completionRate 3 7 = 4286 / 100 :=
  (C6_completion_rate 3 7 (by norm_num)).2.2.2

/-- C8: the calendar view returns exactly the projections of the tasks in
the caller's visible scope whose deadline lies in the inclusive range
[startDate, endDate]. -/
theorem C8_calendar_inclusive_range (caller : ReqUser) (startDate endDate : Int)
    (st : St) (c : CalendarTask) :
    c ∈ getCalendarTasks caller startDate endDate st ↔
      ∃ t ∈ st.tasks,
        (caller.role = Role.employee → t.assignedTo = caller.id) ∧
        startDate ≤ t.deadline ∧ t.deadline ≤ endDate ∧ c = calendarSelect t := by
  simp only [getCalendarTasks, List.mem_map, List.mem_filter]
  constructor
  · rintro ⟨t, ⟨ht, hq⟩, rfl⟩
    simp only [Bool.and_eq_true, decide_eq_true_eq] at hq
    exact ⟨t, ht, (inScope_iff caller t).mp hq.2, hq.1.1, hq.1.2, rfl⟩
  · rintro ⟨t, ht, hscope, h1, h2, rfl⟩
    refine ⟨t, ⟨ht, ?_⟩, rfl⟩
    simp only [Bool.and_eq_true, decide_eq_true_eq]
    exact ⟨⟨h1, h2⟩, (inScope_iff caller t).mpr hscope⟩

lemma toDigitsCore_eq (f : Nat) : ∀ (n : Nat) (acc : List Char), 1 ≤ n → n ≤ f →
    Nat.toDigitsCore 10 f n acc = reprChars n ++ acc := by
  induction f with
  | zero => intro n acc h1 h2; omega
  | succ f ih =>
    intro n acc h1 h2
    rw [Nat.toDigitsCore]
    by_cases hq : n / 10 = 0
    · simp only [hq, if_pos rfl]
      rw [reprChars, Nat.digits_def' (by norm_num) (by omega), hq]
      simp
    · rw [if_neg hq]
      rw [ih (n / 10) _ (by omega) (by omega : n / 10 ≤ f)]
      conv_rhs => rw [reprChars,
        Nat.digits_def' (by norm_num : (1 : ℕ) < 10) (show 0 < n by omega)]
      rw [reprChars]
      simp

lemma repr_data (n : Nat) (h : 1 ≤ n) : (Nat.repr n).data = reprChars n := by
  show (Nat.toDigits 10 n).asString.data = reprChars n
  rw [Nat.toDigits, toDigitsCore_eq (n + 1) n [] h (by omega)]
  simp [List.asString]

lemma reprChars_inj (a b : Nat) (h : reprChars a = reprChars b) : a = b := by
  have hgen : ∀ (l1 l2 : List Nat), (∀ d ∈ l1, d < 10) → (∀ d ∈ l2, d < 10) →
      l1.map Nat.digitChar = l2.map Nat.digitChar → l1 = l2 := by
    intro l1
    induction l1 with
    | nil => intro l2 _ _ hm; cases l2 <;> simp_all
    | cons x xs ih =>
      intro l2 hl1 hl2 hm
      cases l2 with
      | nil => simp at hm
      | cons y ys =>
        simp only [List.map_cons, List.cons.injEq] at hm
        have hx := hl1 x (by simp)
        have hy := hl2 y (by simp)
        have hdc : ∀ a < 10, ∀ b < 10, Nat.digitChar a = Nat.digitChar b → a = b := by
          decide
        rw [ih ys (fun d hd => hl1 d (by simp [hd])) (fun d hd => hl2 d (by simp [hd])) hm.2,
          hdc x hx y hy hm.1]
  have hrev : (Nat.digits 10 a).reverse = (Nat.digits 10 b).reverse :=
    hgen _ _ (fun d hd => Nat.digits_lt_base (by norm_num) (List.mem_reverse.mp hd))
      (fun d hd => Nat.digits_lt_base (by norm_num) (List.mem_reverse.mp hd)) h
  have hdig : Nat.digits 10 a = Nat.digits 10 b := List.reverse_injective hrev
  calc a = Nat.ofDigits 10 (Nat.digits 10 a) := (Nat.ofDigits_digits 10 a).symm
    _ = Nat.ofDigits 10 (Nat.digits 10 b) := by rw [hdig]
    _ = b := Nat.ofDigits_digits 10 b

lemma reprChars_no_leading_zero (n : Nat) (h : 1 ≤ n) (l : List Char) :
    reprChars n ≠ '0' :: l := by
  intro heq
  rw [reprChars] at heq
  rcases hrev : (Nat.digits 10 n).reverse with _ | ⟨d, ds⟩
  · rw [hrev] at heq; simp at heq
  · rw [hrev] at heq
    simp only [List.map_cons, List.cons.injEq] at heq
    have hd10 : d < 10 := Nat.digits_lt_base (by norm_num)
      (List.mem_reverse.mp (by rw [hrev]; exact List.mem_cons_self d ds))
    have hd0 : d = 0 := by
      have hz : ∀ d < 10, Nat.digitChar d = '0' → d = 0 := by decide
      exact hz d hd10 heq.1
    have hne : n ≠ 0 := by omega
    have hdig : Nat.digits 10 n = ds.reverse ++ [d] := by
      have := congrArg List.reverse hrev
      simpa using this
    have hnil : Nat.digits 10 n ≠ [] := Nat.digits_ne_nil_iff_ne_zero.mpr hne
    have hlast := Nat.getLast_digit_ne_zero 10 hne
    have h2 : (Nat.digits 10 n).getLast? = some d := by
      rw [hdig]; exact List.getLast?_concat _
    rw [List.getLast?_eq_getLast _ hnil] at h2
    have h3 : (Nat.digits 10 n).getLast hnil = d := Option.some.inj h2
    rw [h3] at hlast
    exact hlast hd0

lemma replicate_zero_append_inj (k1 : Nat) : ∀ (k2 : Nat) (l1 l2 : List Char),
    (∀ t, l1 ≠ '0' :: t) → (∀ t, l2 ≠ '0' :: t) →
    List.replicate k1 '0' ++ l1 = List.replicate k2 '0' ++ l2 → l1 = l2 := by
  induction k1 with
  | zero =>
    intro k2 l1 l2 h1 _ heq
    cases k2 with
    | zero => simpa using heq
    | succ k =>
      rw [List.replicate_succ] at heq
      simp only [List.nil_append, List.cons_append] at heq
      exact absurd heq (h1 _)
  | succ k ih =>
    intro k2 l1 l2 h1 h2 heq
    cases k2 with
    | zero =>
      rw [List.replicate_succ] at heq
      simp only [List.nil_append, List.cons_append] at heq
      exact absurd heq.symm (h2 _)
    | succ k2' =>
      rw [List.replicate_succ, List.replicate_succ] at heq
      simp only [List.cons_append, List.cons.injEq, true_and] at heq
      exact ih k2' l1 l2 h1 h2 heq

lemma genEmployeeId_inj (a b : Nat) (h : genEmployeeId a = genEmployeeId b) :
    a = b := by
  have hdata := congrArg String.data h
  rw [genEmployeeId, genEmployeeId, padStart, padStart] at hdata
  rw [String.data_append, String.data_append, String.data_append,
    String.data_append] at hdata
  have hdata2 := List.append_cancel_left hdata
  have hmk : ∀ l : List Char, (String.mk l).data = l := fun _ => rfl
  rw [hmk, hmk] at hdata2
  rw [show (toString (a + 1)).data = reprChars (a + 1) from repr_data _ (by omega),
    show (toString (b + 1)).data = reprChars (b + 1) from repr_data _ (by omega)] at hdata2
  have hll := replicate_zero_append_inj _ _ _ _
    (reprChars_no_leading_zero (a + 1) (by omega))
    (reprChars_no_leading_zero (b + 1) (by omega)) hdata2
  have := reprChars_inj (a + 1) (b + 1) hll
  omega

lemma createEmployee_invariant (body : CreateEmployeeBody) (uid : Nat) (now : Int)
    (st : St)
    (hinv : employeeIds st = (List.range st.employees.length).map genEmployeeId) :
    employeeIds (createEmployee body uid now st).2
      = (List.range (createEmployee body uid now st).2.employees.length).map
          genEmployeeId := by
  unfold createEmployee
  by_cases hdup : st.users.any (fun u => decide (u.email = body.email))
  · simpa [hdup] using hinv
  · simp only [hdup, Bool.false_eq_true, if_neg, ite_false]
    simp only [employeeIds, List.map_append, List.length_append, List.map_cons,
      List.map_nil, List.length_cons, List.length_nil]
    rw [show st.employees.length + (0 + 1) = st.employees.length + 1 by omega,
      List.range_succ, List.map_append]
    rw [employeeIds] at hinv
    rw [hinv]
    simp

lemma runCreates_invariant (ops : List EmpOp) : ∀ (st : St),
    (∀ op ∈ ops, op.isCreate = true) →
    employeeIds st = (List.range st.employees.length).map genEmployeeId →
    employeeIds (runEmpOps st ops)
      = (List.range (runEmpOps st ops).employees.length).map genEmployeeId := by
  induction ops with
  | nil => intro st _ hinv; exact hinv
  | cons op rest ih =>
    intro st hops hinv
    cases op with
    | delete uid =>
      have := hops (EmpOp.delete uid) (by simp)
      simp [EmpOp.isCreate] at this
    | create body uid now =>
      rw [runEmpOps]
      exact ih _ (fun o ho => hops o (by simp [ho]))
        (createEmployee_invariant body uid now st hinv)

/-- C4 counterexample: create two employees, delete the first, create a
third; the third employee is assigned `EMP0002`, which the second employee
already holds, so the stored ids are neither unique nor increasing. -/
theorem C4_counterexample :
    employeeIds (runEmpOps emptySt
      [EmpOp.create bodyA 1 0, EmpOp.create bodyB 2 1,
       EmpOp.delete 1, EmpOp.create bodyC 3 2])
      = ["EMP0002", "EMP0002"] ∧
    ¬ List.Pairwise (fun a b => a ≠ b)
        (employeeIds (runEmpOps emptySt
          [EmpOp.create bodyA 1 0, EmpOp.create bodyB 2 1,
           EmpOp.delete 1, EmpOp.create bodyC 3 2])) := by
  constructor
  · decide
  · decide

/-- C4 (amended): across sequences of employee creates with no interleaved
deletes, starting from an empty store, the stored employee ids are exactly
`EMP0001, EMP0002, …` in creation order — the k-th stored employee holds
`genEmployeeId k` — and hence are pairwise distinct. -/
theorem C4_amended_create_only_ids (ops : List EmpOp)
    (hops : ∀ op ∈ ops, op.isCreate = true) :
    employeeIds (runEmpOps emptySt ops)
      = (List.range (runEmpOps emptySt ops).employees.length).map genEmployeeId ∧
    List.Pairwise (fun a b => a ≠ b) (employeeIds (runEmpOps emptySt ops)) := by
  have hmain := runCreates_invariant ops emptySt hops (by rfl)
  refine ⟨hmain, ?_⟩
  rw [hmain]
  exact List.Pairwise.map genEmployeeId
    (fun a b hab hg => absurd (genEmployeeId_inj a b hg) (Nat.ne_of_lt hab))
    (List.pairwise_lt_range _)

/-- Witness for C4 at a concrete two-create sequence. -/
theorem C4_witness :
    employeeIds (runEmpOps emptySt [EmpOp.create bodyA 1 0, EmpOp.create bodyB 2 1])
      = (List.range (runEmpOps emptySt
          [EmpOp.create bodyA 1 0, EmpOp.create bodyB 2 1]).employees.length).map
            genEmployeeId ∧
    List.Pairwise (fun a b => a ≠ b)
      (employeeIds (runEmpOps emptySt
        [EmpOp.create bodyA 1 0, EmpOp.create bodyB 2 1])) :=
  C4_amended_create_only_ids [EmpOp.create bodyA 1 0, EmpOp.create bodyB 2 1]
    (by decide)

/-- C5: a create-task request whose `assignedTo` does not resolve to a
user with role `employee` (absent user, or user with another role) answers
400 with `success = false` and leaves the whole store unchanged: no task
is persisted and no notification is dispatched. -/
theorem C5_create_task_invalid_assignee_rejected (caller : ReqUser)
    (body : CreateTaskBody) (now : Int) (newId : Nat) (st : St)
    (h : ∀ u, findUser st body.assignedTo = some u → ¬ u.role = Role.employee) :
    (createTask caller body now newId st).1 = { status := 400, success := false } ∧
    (createTask caller body now newId st).2 = st := by
  unfold createTask
  cases hf : findUser st body.assignedTo with
  | none => exact ⟨rfl, rfl⟩
  | some u =>
    have hne := h u hf
    simp [hne]

/-- Witness for C5: assigning to the admin user (role ≠ employee). -/
theorem C5_witness :
    (createTask callerA
      { title := "t", description := "d", assignedTo := 2,
        priority := Priority.low, deadline := 9, tags := [] } 0 3 sampleSt).1
      = { status := 400, success := false } ∧
    (createTask callerA
      { title := "t", description := "d", assignedTo := 2,
        priority := Priority.low, deadline := 9, tags := [] } 0 3 sampleSt).2
      = sampleSt :=
  C5_create_task_invalid_assignee_rejected callerA _ 0 3 sampleSt (by
    intro u hu
    have h2 : findUser sampleSt 2 = some userA := by decide
    rw [h2] at hu
    injection hu with h3
    rw [← h3]
    decide)

lemma setTask_frame (l : List Task) (i : Nat) (f : Task → Task)
    (hf : ∀ t, f t = { t with status := (f t).status }) :
    (∀ t2 ∈ setTask l i f, ∃ t1 ∈ l, t2 = { t1 with status := t2.status }) ∧
    (∀ t1 ∈ l, ¬ t1.id = i → t1 ∈ setTask l i f) := by
  constructor
  · intro t2 ht2
    simp only [setTask, List.mem_map] at ht2
    obtain ⟨t1, ht1, rfl⟩ := ht2
    by_cases hid : t1.id = i
    · refine ⟨t1, ht1, ?_⟩
      rw [if_pos hid]
      exact hf t1
    · refine ⟨t1, ht1, ?_⟩
      rw [if_neg hid]
  · intro t1 ht1 hid
    simp only [setTask, List.mem_map]
    exact ⟨t1, ht1, by rw [if_neg hid]⟩

lemma updateTask_employee_result (caller : ReqUser) (taskId : Nat)
    (body : UpdateTaskBody) (st : St) (task : Task)
    (hrole : caller.role = Role.employee)
    (hfind : findTask st taskId = some task)
    (hown : task.assignedTo = caller.id) :
    (updateTask caller taskId body st).1 = { status := 200, success := true } ∧
    (updateTask caller taskId body st).2.tasks = setTask st.tasks taskId
      (fun t => match body.status with
        | some s => { t with status := s }
        | none => t) ∧
    (updateTask caller taskId body st).2.employees =
      (if body.status = some Status.completed then
        incTasksCompleted st.employees caller.id
      else st.employees) := by
  simp only [updateTask, hfind]
  rw [if_pos hrole, if_neg (not_not_intro hown)]
  by_cases hc : body.status = some Status.completed <;> simp [hc]

/-- C7: when an employee updates their own task, only the status field of
that task can change (every returned task differs from a stored task at
most in `status`, and every other task is kept verbatim), whatever else
the request body carries; updating a task assigned to someone else answers
403 and leaves the store untouched. -/
theorem C7_employee_update_only_status (caller : ReqUser) (taskId : Nat)
    (body : UpdateTaskBody) (st : St) (task : Task)
    (hrole : caller.role = Role.employee)
    (hfind : findTask st taskId = some task) :
    (task.assignedTo = caller.id →
      (updateTask caller taskId body st).1 = { status := 200, success := true } ∧
      (∀ t2 ∈ (updateTask caller taskId body st).2.tasks,
        ∃ t1 ∈ st.tasks, t2 = { t1 with status := t2.status }) ∧
      (∀ t1 ∈ st.tasks, ¬ t1.id = taskId →
        t1 ∈ (updateTask caller taskId body st).2.tasks)) ∧
    (¬ task.assignedTo = caller.id →
      (updateTask caller taskId body st).1 = { status := 403, success := false } ∧
      (updateTask caller taskId body st).2 = st) := by
  constructor
  · intro hown
    obtain ⟨hresp, htasks, hemp⟩ :=
      updateTask_employee_result caller taskId body st task hrole hfind hown
    have hframe := setTask_frame st.tasks taskId
      (fun t => match body.status with
        | some s => { t with status := s }
        | none => t)
      (by intro t; cases body.status <;> rfl)
    rw [htasks]
    exact ⟨hresp, hframe.1, hframe.2⟩
  · intro hown
    simp only [updateTask, hfind]
    rw [if_pos hrole, if_pos hown]
    exact ⟨rfl, rfl⟩

/-- Witness for C7: employee 11 trying to update employee 10's task gets
403 and the store is unchanged. -/
theorem C7_witness :
    (updateTask callerF 1 { status := some Status.inProgress } sampleSt).1
      = { status := 403, success := false } ∧
    (updateTask callerF 1 { status := some Status.inProgress } sampleSt).2
      = sampleSt :=
  (C7_employee_update_only_status callerF 1 { status := some Status.inProgress }
    sampleSt taskA rfl (by decide)).2 (by decide)

lemma incTasksCompleted_find (l : List Employee) (uid : Nat) :
    (incTasksCompleted l uid).find? (fun e => decide (e.user = uid))
      = (l.find? (fun e => decide (e.user = uid))).map
          (fun e => { e with tasksCompleted := e.tasksCompleted + 1 }) := by
  induction l with
  | nil => rfl
  | cons e rest ih =>
    by_cases he : e.user = uid
    · rw [incTasksCompleted, if_pos he]
      rw [List.find?_cons_of_pos _ (by simpa using he),
        List.find?_cons_of_pos _ (by simpa using he)]
      rfl
    · rw [incTasksCompleted, if_neg he]
      rw [List.find?_cons_of_neg _ (by simpa using he),
        List.find?_cons_of_neg _ (by simpa using he)]
      exact ih

/-- C10: an update by the assignee employee whose body sets status to
`completed` increments the assignee's `tasksCompleted` by exactly one —
with no hypothesis on the task's previous status, so a task that is
already `completed` increments it again; an admin update never touches the
employee records. -/
theorem C10_completed_increment_unconditional (taskId : Nat)
    (body : UpdateTaskBody) (st : St) (task : Task)
    (hfind : findTask st taskId = some task)
    (hstatus : body.status = some Status.completed) :
    (∀ caller : ReqUser, caller.role = Role.employee →
      task.assignedTo = caller.id →
      tasksCompletedOf (updateTask caller taskId body st).2 caller.id
        = (tasksCompletedOf st caller.id).map (fun n => n + 1)) ∧
    (∀ caller : ReqUser, caller.role = Role.admin →
      (updateTask caller taskId body st).2.employees = st.employees) := by
  constructor
  · intro caller hrole hown
    rw [tasksCompletedOf, tasksCompletedOf, findEmployeeByUser, findEmployeeByUser,
      (updateTask_employee_result caller taskId body st task hrole hfind hown).2.2,
      if_pos hstatus, incTasksCompleted_find]
    cases st.employees.find? (fun e => decide (e.user = caller.id)) <;> rfl
  · intro caller hrole
    have hne : ¬ caller.role = Role.employee := by rw [hrole]; intro hc; cases hc
    simp only [updateTask, hfind]
    rw [if_neg hne]

/-- Witness for C10: task 2 is already `completed`, yet the assignee's
counter still goes up by one on a repeated completed-status update. -/
theorem C10_witness :
    tasksCompletedOf (updateTask callerF 2
        ({ status := some Status.completed } : UpdateTaskBody) sampleSt).2 callerF.id
      = (tasksCompletedOf sampleSt callerF.id).map (fun n => n + 1) ∧
    taskB.status = Status.completed :=
  ⟨(C10_completed_increment_unconditional 2
      ({ status := some Status.completed } : UpdateTaskBody) sampleSt taskB
      (by decide) rfl).1 callerF rfl (by decide),
   by decide⟩

/-- C2 (code bug): the task-update operation performs its status change
through `findByIdAndUpdate`, which does not run the `pre('save')` hook of
`src/models/Task.js`, so the first transition of a task to `completed`
through `PUT /api/tasks/:id` leaves `completedDate` unset — here the
pending task 1 is completed by its assignee and its `completedDate` is
still `none` — even though the hook itself (third conjunct) would have
recorded the date. -/
theorem C2_completed_date_not_set_on_status_update :
    (updateTask callerE 1 ({ status := some Status.completed } : UpdateTaskBody)
        sampleSt).1 = { status := 200, success := true } ∧
    ((findTask (updateTask callerE 1
        ({ status := some Status.completed } : UpdateTaskBody) sampleSt).2 1).map
      (fun t => (t.status, t.completedDate)))
      = some (Status.completed, none) ∧
    (preSaveTask 99 true { taskA with status := Status.completed }).completedDate
      = some 99 := by
  decide

lemma cancelAll_counts (uid : Nat) (l : List Task) :
    ((l.map (fun t => if t.assignedTo = uid then { t with status := Status.cancelled } else t)).filter
        (fun t => decide (t.assignedTo = uid))).length
      = (l.filter (fun t => decide (t.assignedTo = uid))).length ∧
    ((l.map (fun t => if t.assignedTo = uid then { t with status := Status.cancelled } else t)).filter
        (fun t => decide (t.assignedTo = uid) && decide (t.status = Status.cancelled))).length
      = (l.filter (fun t => decide (t.assignedTo = uid))).length ∧
    ((l.map (fun t => if t.assignedTo = uid then { t with status := Status.cancelled } else t)).filter
        (fun t => decide (t.assignedTo = uid) && decide (t.status = Status.completed))).length
      = 0 ∧
    (l.filter (fun t => decide (t.assignedTo = uid) && decide (t.status = Status.cancelled))).length
      ≤ (l.filter (fun t => decide (t.assignedTo = uid))).length := by
  induction l with
  | nil => simp
  | cons x xs ih =>
    obtain ⟨ih1, ih2, ih3, ih4⟩ := ih
    by_cases hx : x.assignedTo = uid
    · by_cases hs : x.status = Status.cancelled <;>
        simp [List.filter_cons, hx, hs, ih1, ih2, ih3] <;> omega
    · simp [List.filter_cons, hx, ih1, ih2, ih3, ih4]

/-- C3 counterexample: user 11 has one `completed` task; after
`deleteEmployee 11` that task is re-marked `cancelled`, so the
completed-status count for that assignee changes (1 to 0), contradicting
the claim that it is unchanged. -/
theorem C3_counterexample_completed_count_changes :
    ¬ assigneeStatusCount (deleteEmployee 11 sampleSt).2 11 Status.completed
      = assigneeStatusCount sampleSt 11 Status.completed := by
  decide

/-- C3 (amended): deleting an employee deletes none of their tasks (the
assignee task count is unchanged) and marks every one of them `cancelled`:
the cancelled count increases by exactly the previously-non-cancelled
count, and the completed count drops to zero (not: stays unchanged). -/
theorem C3_delete_cancels_all_tasks (userId : Nat) (st : St) (u : User)
    (h : findUser st userId = some u) :
    assigneeTaskCount (deleteEmployee userId st).2 userId
      = assigneeTaskCount st userId ∧
    assigneeStatusCount (deleteEmployee userId st).2 userId Status.cancelled
      = assigneeStatusCount st userId Status.cancelled
        + (assigneeTaskCount st userId
            - assigneeStatusCount st userId Status.cancelled) ∧
    assigneeStatusCount (deleteEmployee userId st).2 userId Status.completed = 0 := by
  simp only [deleteEmployee, h]
  obtain ⟨h1, h2, h3, h4⟩ := cancelAll_counts userId st.tasks
  simp only [assigneeTaskCount, assigneeStatusCount]
  refine ⟨h1, ?_, h3⟩
  rw [h2]
  omega

/-- Witness for C3's amended statement at the concrete store. -/
theorem C3_witness :
    assigneeTaskCount (deleteEmployee 11 sampleSt).2 11
      = assigneeTaskCount sampleSt 11 ∧
    assigneeStatusCount (deleteEmployee 11 sampleSt).2 11 Status.cancelled
      = assigneeStatusCount sampleSt 11 Status.cancelled
        + (assigneeTaskCount sampleSt 11
            - assigneeStatusCount sampleSt 11 Status.cancelled) ∧
    assigneeStatusCount (deleteEmployee 11 sampleSt).2 11 Status.completed = 0 :=
  C3_delete_cancels_all_tasks 11 sampleSt userF (by decide)

/-- C9: the single-employee read ignores the caller entirely — two runs
under different authenticated callers (any roles, any identities) produce
identical responses — and the response carries every task assigned to the
requested user (the returned task list is a reordering of all their
tasks). -/
theorem C9_get_employee_caller_independent (c1 c2 : ReqUser) (userId : Nat)
    (st : St) :
    getEmployee c1 userId st = getEmployee c2 userId st ∧
    (∀ v, getEmployee c1 userId st = some v →
      v.tasks.Perm (st.tasks.filter (fun t => decide (t.assignedTo = userId)))) := by
  refine ⟨rfl, ?_⟩
  intro v hv
  cases hfu : findUser st userId with
  | none =>
    simp only [getEmployee, hfu] at hv
    exact Option.noConfusion hv
  | some u =>
    simp only [getEmployee, hfu] at hv
    have hfu' : st.users.find? (fun u0 => decide (u0.id = userId)) = some u := hfu
    have huid : u.id = userId := by simpa using List.find?_some hfu'
    obtain rfl := Option.some.inj hv
    simpa [huid] using List.mergeSort_perm
      (st.tasks.filter (fun t => decide (t.assignedTo = userId)))
      (fun a b => decide (b.createdAt ≤ a.createdAt))

/-- Witness for C9: another employee and the admin read employee 10 and
receive the same response. -/
theorem C9_witness :
    getEmployee callerF 10 sampleSt = getEmployee callerA 10 sampleSt :=
  (C9_get_employee_caller_independent callerF callerA 10 sampleSt).1
